import Mathlib

/-!
Verification of the gtuber manifest generator
(`src/gtuber/gtuber-manifest-generator.c`).

The C source is shallowly embedded below: unsigned C integers (`guint`,
`guint64`) become `Nat`, `gchar *` strings that may be `NULL` become
`Option String`, the mutable `GString` buffer threaded through the
emitter becomes explicit string passing, and `GPtrArray` iteration
(`g_ptr_array_foreach`) becomes `List.foldl`.  Function and field names
follow the C source.
-/

namespace Gtuber

/-! ## Data model

The stream record and media info consumed by the generator.  These live
in `gtuber-stream.c` / `gtuber-media-info.c` (simple setters/getters not
part of this repository snapshot); the fields are the ones the generator
reads through `gtuber_stream_get_*` / `gtuber_adaptive_stream_get_*`.
-/

/-- The container+kind tag of a stream (`GtuberStreamMimeType`):
`video/mp4`, `video/webm`, `audio/mp4`, `audio/webm` or unknown. -/
inductive StreamMimeType where
  | videoMp4
  | videoWebm
  | audioMp4
  | audioWebm
  | unknownMime
deriving DecidableEq

/-- The recognized codec classes (`DashCodec` enum in the source). -/
inductive DashCodec where
  | unknownCodec
  | avc
  | hevc
  | vp9
  | av1
  | mp4a
  | opus
deriving DecidableEq

/-- One adaptive stream record (`GtuberAdaptiveStream`, extending
`GtuberStream`).  Numeric fields are unsigned C integers with `0`
meaning unset; codec strings may be absent (`NULL`). -/
structure AdaptiveStream where
  itag : Nat
  mime_type : StreamMimeType
  video_codec : Option String
  audio_codec : Option String
  width : Nat
  height : Nat
  fps : Nat
  bitrate : Nat
  uri : String
  init_range : Option (Nat × Nat)
  index_range : Option (Nat × Nat)
deriving DecidableEq

/-- `GtuberMediaInfo`: duration in seconds plus the ordered adaptive
stream list. -/
structure MediaInfo where
  duration : Nat
  adaptive_streams : List AdaptiveStream
deriving DecidableEq

/-- The generator object (`struct _GtuberManifestGenerator`): the pretty
flag, indent width, the optional media info and the optional filter
function (its opaque user data is irrelevant to the pure output, so the
filter is modelled as the predicate it computes). -/
structure Generator where
  pretty : Bool
  indent : Nat
  media_info : Option MediaInfo
  filter_func : Option (AdaptiveStream → Bool)

/-! ## Codec classifier (`get_dash_video_codec` / `get_dash_audio_codec`) -/

/-- Character-list prefix test; `isPre p s` models
`g_str_has_prefix (s, p)` restricted to the prefix characters. -/
def isPre : List Char → List Char → Bool
  | [], _ => true
  | _ :: _, [] => false
  | c :: cs, d :: ds => c == d && isPre cs ds

/-- `g_str_has_prefix (s, p)`. -/
def strHasPre (s p : String) : Bool := isPre p.data s.data

/-- `get_dash_video_codec`: first matching prefix wins, in source
order `avc`, `vp9`, `hev`, `av01`; `NULL` or no match gives unknown. -/
def get_dash_video_codec : Option String → DashCodec
  | none => .unknownCodec
  | some c =>
    if strHasPre c "avc" then .avc
    else if strHasPre c "vp9" then .vp9
    else if strHasPre c "hev" then .hevc
    else if strHasPre c "av01" then .av1
    else .unknownCodec

/-- `get_dash_audio_codec`: prefixes `mp4a` then `opus`. -/
def get_dash_audio_codec : Option String → DashCodec
  | none => .unknownCodec
  | some c =>
    if strHasPre c "mp4a" then .mp4a
    else if strHasPre c "opus" then .opus
    else .unknownCodec

/-! ## GCD and pixel aspect ratio (`_get_gcd`, `obtain_par_from_res`) -/

/-- The recursion of `_get_gcd`, made structural on a fuel argument so
that it evaluates by `decide`/`rfl`; `_get_gcd (w, h)` recurses as
`h > 0 ? _get_gcd (h, w % h) : w`, and since the second argument
strictly decreases, fuel `h + 1` is always sufficient. -/
def gcdFuel : Nat → Nat → Nat → Nat
  | 0, w, _ => w
  | f + 1, w, h => if h = 0 then w else gcdFuel f h (w % h)

/-- `_get_gcd (width, height)`. -/
def get_gcd (width height : Nat) : Nat := gcdFuel (height + 1) width height

/-- Decimal digit character for `d < 10`. -/
def digitChar (d : Nat) : Char := Char.ofNat (48 + d)

/-- Fuel-structural decimal digit accumulation (`n / 10` strictly
decreases, so fuel `n + 1` suffices). -/
def decChars : Nat → Nat → List Char → List Char
  | 0, _, acc => acc
  | f + 1, n, acc => if n = 0 then acc else decChars f (n / 10) (digitChar (n % 10) :: acc)

/-- Decimal rendering of an unsigned integer, modelling the `%u`/`%lu`
and `%i` (always applied to unsigned values here) printf conversions
used by the source. -/
def natToDec (n : Nat) : String :=
  if n = 0 then "0" else String.mk (decChars (n + 1) n [])

/-- `obtain_par_from_res`: `"1:1"` when either dimension is 0,
otherwise both divided by their gcd and formatted `"%i:%i"`. -/
def obtain_par_from_res (width height : Nat) : String :=
  if width = 0 ∨ height = 0 then "1:1"
  else
    let g := get_gcd width height
    natToDec (width / g) ++ ":" ++ natToDec (height / g)

/-- `obtain_time_as_pts`: `"PT%uS"`. -/
def obtain_time_as_pts (value : Nat) : String := "PT" ++ natToDec value ++ "S"

/-! ## Adaptation grouping (`DashAdaptationData`, `_sort_streams_cb`) -/

/-- `DashAdaptationData`: grouping key fields plus running maxima and
the member stream list. -/
structure DashAdaptationData where
  mime_type : StreamMimeType
  dash_codec : DashCodec
  max_width : Nat
  max_height : Nat
  max_fps : Nat
  adaptive_streams : List AdaptiveStream
deriving DecidableEq

/-- `dash_adaptation_data_new`. -/
def dash_adaptation_data_new (mt : StreamMimeType) (dc : DashCodec) : DashAdaptationData :=
  { mime_type := mt, dash_codec := dc, max_width := 0, max_height := 0, max_fps := 0,
    adaptive_streams := [] }

/-- The codec string the classification in
`get_adaptation_data_for_stream` reads for a stream: the video codec
for video kinds, the audio codec for audio kinds, `NULL` otherwise. -/
def stream_codec (st : AdaptiveStream) : Option String :=
  match st.mime_type with
  | .videoMp4 | .videoWebm => st.video_codec
  | .audioMp4 | .audioWebm => st.audio_codec
  | .unknownMime => none

/-- The codec class resolved in `get_adaptation_data_for_stream`. -/
def stream_dash_codec (st : AdaptiveStream) : DashCodec :=
  match st.mime_type with
  | .videoMp4 | .videoWebm => get_dash_video_codec st.video_codec
  | .audioMp4 | .audioWebm => get_dash_audio_codec st.audio_codec
  | .unknownMime => .unknownCodec

/-- The grouping key a stream qualifies for, if any: the source guard
`codec && dash_codec != DASH_CODEC_UNKNOWN` before a group is looked up
or created. -/
def streamKey (st : AdaptiveStream) : Option (StreamMimeType × DashCodec) :=
  if (stream_codec st).isSome ∧ stream_dash_codec st ≠ .unknownCodec
  then some (st.mime_type, stream_dash_codec st)
  else none

/-- The per-stream group mutation performed by `_sort_streams_cb` once
`get_adaptation_data_for_stream` has returned a group: fold the
stream's width/height/fps into the maxima with `MAX`, append the
stream. -/
def group_update (st : AdaptiveStream) (d : DashAdaptationData) : DashAdaptationData :=
  { d with
    max_width := max d.max_width st.width
    max_height := max d.max_height st.height
    max_fps := max d.max_fps st.fps
    adaptive_streams := d.adaptive_streams ++ [st] }

/-- `get_adaptation_data_for_stream`'s linear lookup combined with the
update of `_sort_streams_cb`: the first group matching
`(mime_type, dash_codec)` is updated; when none matches, a fresh group
is appended at the end (then updated with the stream). -/
def get_adaptation_data_add (k : StreamMimeType × DashCodec) (st : AdaptiveStream) :
    List DashAdaptationData → List DashAdaptationData
  | [] => [group_update st (dash_adaptation_data_new k.1 k.2)]
  | d :: ds =>
    if d.mime_type = k.1 ∧ d.dash_codec = k.2
    then group_update st d :: ds
    else d :: get_adaptation_data_add k st ds

/-- `_sort_streams_cb` for one stream: the filter defaults to accept
when unset; unrecognized streams leave the group array untouched. -/
def sort_streams_cb (filt : AdaptiveStream → Bool) (adaptations : List DashAdaptationData)
    (st : AdaptiveStream) : List DashAdaptationData :=
  if filt st then
    match streamKey st with
    | some k => get_adaptation_data_add k st adaptations
    | none => adaptations
  else adaptations

/-- The grouping pass of `dump_data`: `g_ptr_array_foreach` of
`_sort_streams_cb` over the adaptive stream array, starting from an
empty group array. -/
def groupStreams (filt : AdaptiveStream → Bool) (ss : List AdaptiveStream) :
    List DashAdaptationData :=
  ss.foldl (sort_streams_cb filt) []

/-- The effective filter of a generator: `TRUE` when no filter
function is set. -/
def effFilter (g : Generator) (st : AdaptiveStream) : Bool :=
  match g.filter_func with
  | none => true
  | some f => f st

/-! ## Line and attribute writing (`add_line_no_newline`, `finish_line`,
`add_line`, `add_option_*`) -/

/-- `n` space characters (the indentation loop of
`add_line_no_newline`). -/
def spacesStr (n : Nat) : String := String.mk (List.replicate n ' ')

/-- `add_line_no_newline`: in pretty mode first append
`depth * self->indent` spaces, then the line text. -/
def add_line_no_newline (g : Generator) (str : String) (depth : Nat) (line : String) : String :=
  (if g.pretty then str ++ spacesStr (depth * g.indent) else str) ++ line

/-- `finish_line`: append the suffix (`""` for `NULL`) and, in pretty
mode, a newline. -/
def finish_line (g : Generator) (str : String) (sfx : String) : String :=
  str ++ sfx ++ (if g.pretty then "\n" else "")

/-- `add_line`. -/
def add_line (g : Generator) (str : String) (depth : Nat) (line : String) : String :=
  finish_line g (add_line_no_newline g str depth line) ""

/-- The text appended by `add_option_string` (` key="value"`). -/
def optStr (key value : String) : String := " " ++ key ++ "=\"" ++ value ++ "\""

/-- The text appended by `add_option_int` (` key="%lu"`). -/
def optInt (key : String) (value : Nat) : String := " " ++ key ++ "=\"" ++ natToDec value ++ "\""

/-- The text appended by `add_option_range` (` key="%lu-%lu"`). -/
def optRange (key : String) (s e : Nat) : String :=
  " " ++ key ++ "=\"" ++ natToDec s ++ "-" ++ natToDec e ++ "\""

/-- The text appended by `add_option_boolean`. -/
def optBool (key : String) (value : Bool) : String :=
  " " ++ key ++ "=\"" ++ (if value then "true" else "false") ++ "\""

/-- `add_option_string`. -/
def add_option_string (str key value : String) : String := str ++ optStr key value

/-- `add_option_int`. -/
def add_option_int (str key : String) (value : Nat) : String := str ++ optInt key value

/-- `add_option_range`. -/
def add_option_range (str key : String) (s e : Nat) : String := str ++ optRange key s e

/-- `add_option_boolean`. -/
def add_option_boolean (str key : String) (value : Bool) : String := str ++ optBool key value

/-- `parse_content_and_mime_type`: content string and mime string
derived from the stream mime type (`NULL` outside the four recognized
combinations). -/
def parse_content_and_mime_type (mt : StreamMimeType) : Option String × Option String :=
  let content : Option String :=
    match mt with
    | .videoMp4 | .videoWebm => some "video"
    | .audioMp4 | .audioWebm => some "audio"
    | .unknownMime => none
  let mime : Option String :=
    match mt with
    | .videoMp4 | .audioMp4 => content.map (fun c => c ++ "/mp4")
    | .videoWebm | .audioWebm => content.map (fun c => c ++ "/webm")
    | .unknownMime => none
  (content, mime)

/-! ## Representation and adaptation set emission
(`_add_representation_cb`, `_add_adaptation_set_cb`) -/

/-- The `codecs` attribute branch of `_add_representation_cb`.
Modelled from the spec: `gtuber_stream_get_codecs` (not in this
snapshot) hands back both codec strings and reports whether any is
set; the attribute is the video codec, the audio codec, or
`"{video}, {audio}"` when both are present, and is omitted when
neither is set. -/
def add_codecs_attr (str : String) (st : AdaptiveStream) : String :=
  match st.video_codec, st.audio_codec with
  | some v, some a => add_option_string str "codecs" (v ++ ", " ++ a)
  | some v, none => add_option_string str "codecs" v
  | none, some a => add_option_string str "codecs" a
  | none, none => str

/-- `_add_representation_cb`: one `<Representation>` block for one
member stream. -/
def add_representation_cb (g : Generator) (str : String) (st : AdaptiveStream) : String :=
  let s1 := add_line_no_newline g str 3 "<Representation"
  let s2 := add_option_int s1 "id" st.itag
  let s3 := add_codecs_attr s2 st
  let s4 := add_option_int s3 "bandwidth" st.bitrate
  let s5 := if st.width ≠ 0 then add_option_int s4 "width" st.width else s4
  let s6 := if st.height ≠ 0 then add_option_int s5 "height" st.height else s5
  let s7 := if st.width ≠ 0 ∧ st.height ≠ 0 then add_option_string s6 "sar" "1:1" else s6
  let s8 := if st.fps ≠ 0 then add_option_int s7 "frameRate" st.fps else s7
  let s9 := finish_line g s8 ">"
  let s10 := add_line_no_newline g s9 4 "<BaseURL>"
  let s11 := add_line_no_newline g s10 0 st.uri
  let s12 := finish_line g s11 "</BaseURL>"
  let s13 := add_line_no_newline g s12 4 "<SegmentBase"
  let s14 :=
    match st.index_range with
    | some r => add_option_range s13 "indexRange" r.1 r.2
    | none => s13
  let s15 := add_option_boolean s14 "indexRangeExact" true
  let s16 := finish_line g s15 ">"
  let s17 := add_line_no_newline g s16 5 "<Initialization"
  let s18 :=
    match st.init_range with
    | some r => add_option_range s17 "range" r.1 r.2
    | none => s17
  let s19 := finish_line g s18 "/>"
  let s20 := add_line g s19 4 "</SegmentBase>"
  add_line g s20 3 "</Representation>"

/-- `_add_adaptation_set_cb`: one `<AdaptationSet>` block for one
group; a group whose content or mime string cannot be derived is
skipped. -/
def add_adaptation_set_cb (g : Generator) (str : String) (a : DashAdaptationData) : String :=
  match parse_content_and_mime_type a.mime_type with
  | (some content, some mime) =>
    let s1 := add_line_no_newline g str 2 "<AdaptationSet"
    let s2 := add_option_string s1 "contentType" content
    let s3 := add_option_string s2 "mimeType" mime
    let s4 := add_option_boolean s3 "subsegmentAlignment" true
    let s5 := add_option_int s4 "subsegmentStartsWithSAP" 1
    let s6 :=
      if content = "video" then
        let t1 := add_option_int s5 "maxWidth" a.max_width
        let t2 := add_option_int t1 "maxHeight" a.max_height
        let t3 := add_option_string t2 "par" (obtain_par_from_res a.max_width a.max_height)
        add_option_int t3 "maxFrameRate" a.max_fps
      else s5
    let s7 := finish_line g s6 ">"
    let s8 := a.adaptive_streams.foldl (add_representation_cb g) s7
    add_line g s8 2 "</AdaptationSet>"
  | _ => str

/-! ## Document emission (`dump_data`, `gen_to_data_internal`) -/

/-- `dump_data`: group the streams, emit nothing when no group was
created, otherwise emit the XML declaration, the `<MPD>` header with
its duration attributes, one `<Period>` with all adaptation sets, and
the closing tags; the final `</MPD>` is written with
`add_line_no_newline`. -/
def dump_data (g : Generator) (info : MediaInfo) : String :=
  let adaptations := groupStreams (effFilter g) info.adaptive_streams
  if adaptations = [] then ""
  else
    let s1 := add_line_no_newline g "" 0 "<?xml"
    let s2 := add_option_string s1 "version" "1.0"
    let s3 := add_option_string s2 "encoding" "UTF-8"
    let s4 := finish_line g s3 "?>"
    let dur_pts := obtain_time_as_pts info.duration
    let buf_pts := obtain_time_as_pts (min 2 info.duration)
    let s5 := add_line_no_newline g s4 0 "<MPD"
    let s6 := add_option_string s5 "xmlns:xsi" "http://www.w3.org/2001/XMLSchema-instance"
    let s7 := add_option_string s6 "xmlns" "urn:mpeg:dash:schema:mpd:2011"
    let s8 := add_option_string s7 "xsi:schemaLocation"
        "urn:mpeg:dash:schema:mpd:2011 DASH-MPD.xsd"
    let s9 := add_option_string s8 "type" "static"
    let s10 := add_option_string s9 "mediaPresentationDuration" dur_pts
    let s11 := add_option_string s10 "minBufferTime" buf_pts
    let s12 := add_option_string s11 "profiles" "urn:mpeg:dash:profile:isoff-on-demand:2011"
    let s13 := finish_line g s12 ">"
    let s14 := add_line g s13 1 "<Period>"
    let s15 := adaptations.foldl (add_adaptation_set_cb g) s14
    let s16 := add_line g s15 1 "</Period>"
    add_line_no_newline g s16 0 "</MPD>"

/-- `gen_to_data_internal`: `NULL` (no data, no `GError` channel)
when no media info has been set; otherwise the dumped text together
with the length reported through the out parameter. -/
def gen_to_data_internal (g : Generator) : Option (String × Nat) :=
  match g.media_info with
  | none => none
  | some info =>
    let s := dump_data g info
    some (s, s.length)

/-! ## File persistence (`gtuber_manifest_generator_to_file`) -/

/-- The error kinds observable through the `GError` out parameter of
`gtuber_manifest_generator_to_file`. -/
inductive GenError where
  | ioError
deriving DecidableEq

/-- A flat file system: contents by path. -/
def FsState := String → Option String

/-- The temporary path used by the atomic write. -/
def tmpName (path : String) : String := path ++ ".XXXXXX"

/-- Modelled from the spec: `g_file_set_contents` (GLib, not in this
repository) writes the contents to a temporary file next to `path` and
atomically renames it over `path`; on a failed write nothing changes,
on a failed rename the target is untouched (the temporary file
remains), and on success the target holds the new contents and no
temporary file is left behind.  `writeOk` / `renameOk` inject faults
into the two steps. -/
def g_file_set_contents (fs : FsState) (path contents : String) (writeOk renameOk : Bool) :
    FsState × Bool :=
  if writeOk = false then (fs, false)
  else if renameOk = false then
    (fun p => if p = tmpName path then some contents else fs p, false)
  else
    (fun p => if p = tmpName path then none
              else if p = path then some contents else fs p, true)

/-- `gtuber_manifest_generator_to_file`: generate, then hand the data
to `g_file_set_contents`; a `FALSE` result from it surfaces as the
propagated I/O error.  When no media info is set,
`gen_to_data_internal` returns `NULL` via `g_return_val_if_fail` and
the C code then passes the `NULL` data with an *uninitialized* length
to `g_file_set_contents` (undefined behavior); that branch is modelled
as performing no write and reporting no error, which is the benign
reading of the slip. -/
def gtuber_manifest_generator_to_file (g : Generator) (fs : FsState) (path : String)
    (writeOk renameOk : Bool) : FsState × Bool × Option GenError :=
  match gen_to_data_internal g with
  | some d =>
    let r := g_file_set_contents fs path d.1 writeOk renameOk
    (r.1, r.2, if r.2 then none else some .ioError)
  | none => (fs, false, none)

/-! ## Filter registration lifecycle
(`gtuber_manifest_generator_set_filter_func`,
`gtuber_manifest_generator_dispose`) -/

/-- One observable operation on a generator's filter slot: installing
a registration (`some (id, hasDestroy)` is a filter whose user data is
identified by `id`, with or without a destroy notifier; `none` clears
the filter) or disposing the generator. -/
inductive GenOp where
  | setFilter (reg : Option (Nat × Bool))
  | dispose
deriving DecidableEq

/-- The cleanup emission both operations perform:
`if (self->filter_destroy) self->filter_destroy (self->filter_data);`. -/
def relCur : Option (Nat × Bool) → List Nat
  | some (i, true) => [i]
  | _ => []

/-- One step of the filter slot: `set_filter_func` releases the
previous user data, then installs the new registration; `dispose`
releases and nulls the slot (so a second dispose releases nothing). -/
def gen_op_step (cur : Option (Nat × Bool)) : GenOp → Option (Nat × Bool) × List Nat
  | .setFilter r => (r, relCur cur)
  | .dispose => (none, relCur cur)

/-- Run a sequence of operations from a slot state, collecting the
emitted cleanup calls in order. -/
def runOps (cur : Option (Nat × Bool)) : List GenOp → Option (Nat × Bool) × List Nat
  | [] => (cur, [])
  | op :: ops =>
    let r := gen_op_step cur op
    let rest := runOps r.1 ops
    (rest.1, r.2 ++ rest.2)

/-- The user-data ids registered with a destroy notifier by a sequence
of operations. -/
def regIds (ops : List GenOp) : List Nat :=
  ops.filterMap fun op =>
    match op with
    | .setFilter (some (i, true)) => some i
    | _ => none

/-! ## Specification-side view of the document (for the formatting
claims): the document as a list of `(depth, body)` lines

Following §4.4 of the specification, the document is described as a
sequence of lines, each carrying a nesting depth (MPD 0, Period 1,
AdaptationSet 2, Representation 3, BaseURL/SegmentBase 4,
Initialization 5) and its body text; pretty rendering prefixes each
body with `depth * indent` spaces and terminates it with a newline
(the final `</MPD>` line gets no newline), non-pretty rendering
concatenates the bodies unchanged. -/

/-- Concatenation of a string list. -/
def strConcat : List String → String
  | [] => ""
  | s :: rest => s ++ strConcat rest

/-- The indentation a generator writes before a line of the given
depth. -/
def indStr (g : Generator) (depth : Nat) : String :=
  if g.pretty then spacesStr (depth * g.indent) else ""

/-- The line terminator a generator writes. -/
def nlStr (g : Generator) : String := if g.pretty then "\n" else ""

/-- Render one `(depth, body)` line. -/
def renderLine (g : Generator) (p : Nat × String) : String :=
  indStr g p.1 ++ p.2 ++ nlStr g

/-- The `codecs` attribute text of a Representation line. -/
def codecsOpt (st : AdaptiveStream) : String :=
  match st.video_codec, st.audio_codec with
  | some v, some a => optStr "codecs" (v ++ ", " ++ a)
  | some v, none => optStr "codecs" v
  | none, some a => optStr "codecs" a
  | none, none => ""

/-- Body of the `<Representation ...>` opening line. -/
def repOpen (st : AdaptiveStream) : String :=
  "<Representation" ++ optInt "id" st.itag ++ codecsOpt st ++ optInt "bandwidth" st.bitrate
    ++ (if st.width ≠ 0 then optInt "width" st.width else "")
    ++ (if st.height ≠ 0 then optInt "height" st.height else "")
    ++ (if st.width ≠ 0 ∧ st.height ≠ 0 then optStr "sar" "1:1" else "")
    ++ (if st.fps ≠ 0 then optInt "frameRate" st.fps else "")
    ++ ">"

/-- Body of the `<SegmentBase ...>` opening line. -/
def segBaseOpen (st : AdaptiveStream) : String :=
  "<SegmentBase"
    ++ (match st.index_range with
        | some r => optRange "indexRange" r.1 r.2
        | none => "")
    ++ optBool "indexRangeExact" true ++ ">"

/-- Body of the self-closed `<Initialization .../>` line. -/
def initLine (st : AdaptiveStream) : String :=
  "<Initialization"
    ++ (match st.init_range with
        | some r => optRange "range" r.1 r.2
        | none => "")
    ++ "/>"

/-- The `(depth, body)` lines of one Representation block:
Representation at depth 3, BaseURL and SegmentBase at depth 4,
Initialization at depth 5. -/
def repLines (st : AdaptiveStream) : List (Nat × String) :=
  [(3, repOpen st),
   (4, "<BaseURL>" ++ st.uri ++ "</BaseURL>"),
   (4, segBaseOpen st),
   (5, initLine st),
   (4, "</SegmentBase>"),
   (3, "</Representation>")]

/-- Body of the `<AdaptationSet ...>` opening line. -/
def adaptOpen (a : DashAdaptationData) (content mime : String) : String :=
  "<AdaptationSet" ++ optStr "contentType" content ++ optStr "mimeType" mime
    ++ optBool "subsegmentAlignment" true ++ optInt "subsegmentStartsWithSAP" 1
    ++ (if content = "video" then
          optInt "maxWidth" a.max_width ++ optInt "maxHeight" a.max_height
            ++ optStr "par" (obtain_par_from_res a.max_width a.max_height)
            ++ optInt "maxFrameRate" a.max_fps
        else "")
    ++ ">"

/-- The `(depth, body)` lines of one AdaptationSet block (depth 2),
containing its Representation blocks; a group without derivable
content/mime strings contributes nothing. -/
def adaptLines (a : DashAdaptationData) : List (Nat × String) :=
  match parse_content_and_mime_type a.mime_type with
  | (some content, some mime) =>
    (2, adaptOpen a content mime) :: (a.adaptive_streams.flatMap repLines ++ [(2, "</AdaptationSet>")])
  | _ => []

/-- Body of the XML declaration line (depth 0). -/
def xmlDeclB : String := "<?xml" ++ optStr "version" "1.0" ++ optStr "encoding" "UTF-8" ++ "?>"

/-- The `<MPD` attributes before the duration attributes. -/
def mpdPre : String :=
  "<MPD" ++ optStr "xmlns:xsi" "http://www.w3.org/2001/XMLSchema-instance"
    ++ optStr "xmlns" "urn:mpeg:dash:schema:mpd:2011"
    ++ optStr "xsi:schemaLocation" "urn:mpeg:dash:schema:mpd:2011 DASH-MPD.xsd"
    ++ optStr "type" "static"

/-- Body of the `<MPD ...>` opening line (depth 0). -/
def mpdB (dur : Nat) : String :=
  mpdPre ++ optStr "mediaPresentationDuration" (obtain_time_as_pts dur)
    ++ optStr "minBufferTime" (obtain_time_as_pts (min 2 dur))
    ++ optStr "profiles" "urn:mpeg:dash:profile:isoff-on-demand:2011" ++ ">"

/-- All `(depth, body)` lines of a document other than the final
`</MPD>` line: declaration and MPD header at depth 0, Period at depth
1, the adaptation set blocks, and the closing `</Period>`. -/
def docLines (filt : AdaptiveStream → Bool) (info : MediaInfo) : List (Nat × String) :=
  [(0, xmlDeclB), (0, mpdB info.duration), (1, "<Period>")]
    ++ (groupStreams filt info.adaptive_streams).flatMap adaptLines
    ++ [(1, "</Period>")]

/-! ## Grouping: specification-side descriptions and invariants -/

/-- The key of a created group. -/
def gKey (d : DashAdaptationData) : StreamMimeType × DashCodec := (d.mime_type, d.dash_codec)

/-- Specification-side first-encounter key accumulation: one step
appends a qualifying stream's key when it has not been seen yet. -/
def keyStep (filt : AdaptiveStream → Bool) (ks : List (StreamMimeType × DashCodec))
    (st : AdaptiveStream) : List (StreamMimeType × DashCodec) :=
  if filt st then
    match streamKey st with
    | some k => if k ∈ ks then ks else ks ++ [k]
    | none => ks
  else ks

/-- The keys of the qualifying streams of a sequence, in
first-encounter order. -/
def firstKeys (filt : AdaptiveStream → Bool) (ss : List AdaptiveStream) :
    List (StreamMimeType × DashCodec) :=
  ss.foldl (keyStep filt) []

/-- Membership test of a stream in the group of key `k`: accepted by
the filter and classified to exactly that key. -/
def inGroup (filt : AdaptiveStream → Bool) (k : StreamMimeType × DashCodec)
    (st : AdaptiveStream) : Bool :=
  filt st && decide (streamKey st = some k)

/-- Maximum of a list of unsigned values, `0` when empty. -/
def natListMax (l : List Nat) : Nat := l.foldl max 0

/-- The one data invariant tied to one group: its member list is the
filter of the processed input by its key, and each running maximum is
the maximum of the corresponding member values. -/
def GroupOk (filt : AdaptiveStream → Bool) (processed : List AdaptiveStream)
    (d : DashAdaptationData) : Prop :=
  d.adaptive_streams = processed.filter (inGroup filt (gKey d))
    ∧ d.max_width = natListMax (d.adaptive_streams.map AdaptiveStream.width)
    ∧ d.max_height = natListMax (d.adaptive_streams.map AdaptiveStream.height)
    ∧ d.max_fps = natListMax (d.adaptive_streams.map AdaptiveStream.fps)

/-! ## Concrete sample values and auxiliary predicates -/

/-- No newline character occurs in the string. -/
def nlFree (s : String) : Prop := '\n' ∉ s.data

instance nlFreeDecidable (s : String) : Decidable (nlFree s) :=
  inferInstanceAs (Decidable ('\n' ∉ s.data))

/-- The caller-controlled text fields of a stream contain no newline
character. -/
def StreamNlFree (st : AdaptiveStream) : Prop :=
  nlFree st.uri
    ∧ (∀ c, st.video_codec = some c → nlFree c)
    ∧ (∀ c, st.audio_codec = some c → nlFree c)

/-- Sample AVC video stream used to instantiate the theorems. -/
def sampleVideo : AdaptiveStream :=
  { itag := 101, mime_type := .videoMp4, video_codec := some "avc1.4d401f",
    audio_codec := none, width := 1280, height := 720, fps := 30, bitrate := 400000,
    uri := "http://example.com/v", init_range := some (0, 740), index_range := some (741, 1200) }

/-- Sample MP4A audio stream. -/
def sampleAudio : AdaptiveStream :=
  { itag := 140, mime_type := .audioMp4, video_codec := none,
    audio_codec := some "mp4a.40.2", width := 0, height := 0, fps := 0, bitrate := 128000,
    uri := "http://example.com/a", init_range := some (0, 631), index_range := some (632, 999) }

/-- A qualifying stream whose URI carries an embedded newline
character. -/
def newlineStream : AdaptiveStream :=
  { itag := 1, mime_type := .videoMp4, video_codec := some "avc1", audio_codec := none,
    width := 0, height := 0, fps := 0, bitrate := 0, uri := "http://e/\na",
    init_range := none, index_range := none }

/-- Media info holding only `newlineStream`. -/
def newlineInfo : MediaInfo := { duration := 10, adaptive_streams := [newlineStream] }

/-- Sample media info with one qualifying video and one qualifying
audio stream. -/
def sampleInfo : MediaInfo := { duration := 125, adaptive_streams := [sampleVideo, sampleAudio] }

/-- A generator on which no media info has been set. -/
def unsetGen : Generator :=
  { pretty := false, indent := 2, media_info := none, filter_func := none }

/-- A generator with the given pretty flag and indent width, holding
the given media info and no filter. -/
def mkGen (p : Bool) (indentWidth : Nat) (info : MediaInfo) : Generator :=
  { pretty := p, indent := indentWidth, media_info := some info, filter_func := none }

/-- An empty file system. -/
def emptyFs : FsState := fun _ => none

/-! ## Helper lemmas: strings and folds -/

theorem strConcat_append (a b : List String) :
    strConcat (a ++ b) = strConcat a ++ strConcat b := by
  induction a with
  | nil => simp [strConcat]
  | cons x xs ih => simp [strConcat, ih, String.append_assoc]

theorem ite_append {c : Prop} [Decidable c] (s t : String) :
    (if c then s ++ t else s) = s ++ (if c then t else "") := by
  split <;> simp

theorem ite_append_flip {c : Prop} [Decidable c] (s t : String) :
    (if c then s else s ++ t) = s ++ (if c then "" else t) := by
  split <;> simp

theorem indStr_zero (g : Generator) : indStr g 0 = "" := by
  unfold indStr spacesStr
  cases hp : g.pretty <;> simp

theorem add_line_no_newline_eq (g : Generator) (str : String) (depth : Nat) (line : String) :
    add_line_no_newline g str depth line = str ++ (indStr g depth ++ line) := by
  unfold add_line_no_newline indStr
  cases hp : g.pretty <;> simp [String.append_assoc]

theorem finish_line_eq (g : Generator) (str sfx : String) :
    finish_line g str sfx = str ++ (sfx ++ nlStr g) := by
  unfold finish_line nlStr
  simp [String.append_assoc]

theorem add_line_eq (g : Generator) (str : String) (depth : Nat) (line : String) :
    add_line g str depth line = str ++ renderLine g (depth, line) := by
  simp [add_line, add_line_no_newline_eq, finish_line_eq, renderLine,
    String.append_assoc]

theorem foldl_emit {α : Type} (F : String → α → String) (f : α → String)
    (hF : ∀ s x, F s x = s ++ f x) (l : List α) (s0 : String) :
    l.foldl F s0 = s0 ++ strConcat (l.map f) := by
  induction l generalizing s0 with
  | nil => simp [strConcat]
  | cons x xs ih => simp [hF, ih, strConcat, String.append_assoc]

theorem strConcat_map_flatMap {α : Type} (f : Nat × String → String) (h : α → List (Nat × String))
    (l : List α) :
    strConcat ((l.flatMap h).map f) = strConcat (l.map fun a => strConcat ((h a).map f)) := by
  induction l with
  | nil => simp [strConcat]
  | cons x xs ih => simp [strConcat, strConcat_append, ih]

/-! ## The emitter as line rendering -/

theorem add_codecs_attr_eq (str : String) (st : AdaptiveStream) :
    add_codecs_attr str st = str ++ codecsOpt st := by
  cases hv : st.video_codec <;> cases ha : st.audio_codec <;>
    simp [add_codecs_attr, codecsOpt, add_option_string, hv, ha]

theorem add_representation_cb_eq (g : Generator) (str : String) (st : AdaptiveStream) :
    add_representation_cb g str st = str ++ strConcat ((repLines st).map (renderLine g)) := by
  obtain ⟨tg, mt, vc, ac, w, h, fp, br, uri, ir, xr⟩ := st
  cases ir <;> cases xr <;>
    simp [add_representation_cb, repLines, repOpen, segBaseOpen, initLine,
      add_codecs_attr_eq, add_option_int, add_option_string, add_option_range,
      add_option_boolean, add_line_no_newline_eq, finish_line_eq, add_line_eq, renderLine,
      strConcat, indStr_zero, ite_append, ite_append_flip, -String.reduceAppend,
      ← String.append_assoc]

theorem add_adaptation_set_cb_eq (g : Generator) (str : String) (a : DashAdaptationData) :
    add_adaptation_set_cb g str a = str ++ strConcat ((adaptLines a).map (renderLine g)) := by
  have hfold := foldl_emit (add_representation_cb g)
    (fun st => strConcat ((repLines st).map (renderLine g)))
    (fun s x => add_representation_cb_eq g s x) a.adaptive_streams
  cases hmt : a.mime_type <;>
    simp [add_adaptation_set_cb, adaptLines, parse_content_and_mime_type, hmt, adaptOpen,
      add_option_int, add_option_string, add_option_boolean,
      add_line_no_newline_eq, finish_line_eq, add_line_eq, renderLine, strConcat,
      strConcat_append, strConcat_map_flatMap, hfold, -String.reduceAppend,
      ← String.append_assoc]

theorem dump_data_eq (g : Generator) (info : MediaInfo) :
    dump_data g info =
      if groupStreams (effFilter g) info.adaptive_streams = [] then ""
      else strConcat ((docLines (effFilter g) info).map (renderLine g)) ++ "</MPD>" := by
  by_cases hemp : groupStreams (effFilter g) info.adaptive_streams = []
  · simp [dump_data, hemp]
  · have hfold := foldl_emit (add_adaptation_set_cb g)
      (fun a => strConcat ((adaptLines a).map (renderLine g)))
      (fun s x => add_adaptation_set_cb_eq g s x)
      (groupStreams (effFilter g) info.adaptive_streams)
    simp [dump_data, hemp, docLines, xmlDeclB, mpdB, mpdPre,
      add_option_string, add_line_no_newline_eq, finish_line_eq, add_line_eq, renderLine,
      strConcat, strConcat_append, strConcat_map_flatMap, indStr_zero, hfold,
      -String.reduceAppend, ← String.append_assoc]

theorem natListMax_append (l : List Nat) (x : Nat) :
    natListMax (l ++ [x]) = max (natListMax l) x := by
  simp [natListMax, List.foldl_append]

theorem natListMax_single (x : Nat) : natListMax [x] = max 0 x := rfl


theorem gKey_add (k : StreamMimeType × DashCodec) (st : AdaptiveStream)
    (acc : List DashAdaptationData) :
    (get_adaptation_data_add k st acc).map gKey =
      if k ∈ acc.map gKey then acc.map gKey else acc.map gKey ++ [k] := by
  induction acc with
  | nil => simp [get_adaptation_data_add, group_update, dash_adaptation_data_new, gKey]
  | cons d ds ih =>
    by_cases hd : d.mime_type = k.1 ∧ d.dash_codec = k.2
    · have hk : gKey d = k := by
        rw [Prod.ext_iff]
        exact hd
      simp [get_adaptation_data_add, hd, group_update, gKey, hk]
    · have hk : ¬gKey d = k := by
        rw [Prod.ext_iff]
        exact hd
      have hk2 : ¬k = gKey d := fun h => hk h.symm
      simp [get_adaptation_data_add, hd, ih, hk2]
      split <;> simp

theorem mem_foldl_keyStep (filt : AdaptiveStream → Bool) (a : StreamMimeType × DashCodec)
    (ss : List AdaptiveStream) (ks : List (StreamMimeType × DashCodec)) :
    a ∈ ss.foldl (keyStep filt) ks
      ↔ a ∈ ks ∨ ∃ st ∈ ss, filt st = true ∧ streamKey st = some a := by
  induction ss generalizing ks with
  | nil => simp
  | cons st rest ih =>
    have hstep : ∀ b, b ∈ keyStep filt ks st ↔ b ∈ ks ∨ (filt st = true ∧ streamKey st = some b) := by
      intro b
      by_cases hf : filt st = true
      · cases hsk : streamKey st with
        | none => simp [keyStep, hf, hsk]
        | some k =>
          by_cases hm : k ∈ ks
          · simp only [keyStep, hf, hsk, if_true, if_pos hm, true_and,
              Option.some.injEq]
            constructor
            · exact Or.inl
            · rintro (hb | rfl)
              · exact hb
              · exact hm
          · simp only [keyStep, hf, hsk, if_true, if_neg hm, true_and,
              Option.some.injEq, List.mem_append, List.mem_singleton]
            constructor
            · rintro (hb | rfl)
              · exact Or.inl hb
              · exact Or.inr rfl
            · rintro (hb | rfl)
              · exact Or.inl hb
              · exact Or.inr rfl
      · simp [keyStep, hf]
    simp only [List.foldl_cons, ih, hstep]
    constructor
    · rintro ((h | h) | ⟨st', hst', hp⟩)
      · exact Or.inl h
      · exact Or.inr ⟨st, List.mem_cons_self st rest, h.1, h.2⟩
      · exact Or.inr ⟨st', List.mem_cons_of_mem st hst', hp⟩
    · rintro (h | ⟨st', hst', hp⟩)
      · exact Or.inl (Or.inl h)
      · rcases List.mem_cons.mp hst' with heq | hmem
        · subst heq
          exact Or.inl (Or.inr hp)
        · exact Or.inr ⟨st', hmem, hp⟩

theorem nodup_foldl_keyStep (filt : AdaptiveStream → Bool) (ss : List AdaptiveStream)
    (ks : List (StreamMimeType × DashCodec)) (hks : ks.Nodup) :
    (ss.foldl (keyStep filt) ks).Nodup := by
  induction ss generalizing ks with
  | nil => exact hks
  | cons st rest ih =>
    simp only [List.foldl_cons]
    apply ih
    by_cases hf : filt st = true
    · cases hsk : streamKey st with
      | none => simpa [keyStep, hf, hsk] using hks
      | some k =>
        by_cases hm : k ∈ ks
        · simpa [keyStep, hf, hsk, hm] using hks
        · simp [keyStep, hf, hsk, hm, List.nodup_append, hks]
    · simpa [keyStep, hf] using hks

theorem firstKeys_nodup (filt : AdaptiveStream → Bool) (ss : List AdaptiveStream) :
    (firstKeys filt ss).Nodup :=
  nodup_foldl_keyStep filt ss [] List.nodup_nil

theorem filter_snoc {α : Type} (p : α → Bool) (l : List α) (a : α) :
    (l ++ [a]).filter p = l.filter p ++ if p a then [a] else [] := by
  simp [List.filter_append, List.filter_cons]

theorem inGroup_self (filt : AdaptiveStream → Bool) (k : StreamMimeType × DashCodec)
    (st : AdaptiveStream) (hf : filt st = true) (hsk : streamKey st = some k) :
    inGroup filt k st = true := by
  simp [inGroup, hf, hsk]

theorem inGroup_false_of_filter (filt : AdaptiveStream → Bool) (k : StreamMimeType × DashCodec)
    (st : AdaptiveStream) (hf : ¬filt st = true) : inGroup filt k st = false := by
  simp [inGroup]
  intro h
  exact absurd h hf

theorem inGroup_false_of_key (filt : AdaptiveStream → Bool) (k : StreamMimeType × DashCodec)
    (st : AdaptiveStream) (hsk : streamKey st ≠ some k) : inGroup filt k st = false := by
  simp [inGroup]
  intro _
  exact hsk

theorem GroupOk.snoc_skip (filt : AdaptiveStream → Bool) (processed : List AdaptiveStream)
    (st : AdaptiveStream) (d : DashAdaptationData)
    (hng : inGroup filt (gKey d) st = false) (h : GroupOk filt processed d) :
    GroupOk filt (processed ++ [st]) d := by
  obtain ⟨h1, h2⟩ := h
  refine ⟨?_, h2⟩
  rw [filter_snoc, hng]
  simpa using h1

theorem GroupOk.snoc_add (filt : AdaptiveStream → Bool) (processed : List AdaptiveStream)
    (st : AdaptiveStream) (k : StreamMimeType × DashCodec) (d : DashAdaptationData)
    (hin : inGroup filt k st = true) (hgd : gKey d = k) (h : GroupOk filt processed d) :
    GroupOk filt (processed ++ [st]) (group_update st d) := by
  obtain ⟨h1, h2, h3, h4⟩ := h
  have hgk : gKey (group_update st d) = gKey d := rfl
  refine ⟨?_, ?_, ?_, ?_⟩
  · show d.adaptive_streams ++ [st] = _
    rw [hgk, hgd, filter_snoc, hin, ← hgd, ← h1]
    simp
  · show max d.max_width st.width = _
    show _ = natListMax ((d.adaptive_streams ++ [st]).map AdaptiveStream.width)
    rw [h2, List.map_append, List.map_singleton, natListMax_append]
  · show max d.max_height st.height = _
    show _ = natListMax ((d.adaptive_streams ++ [st]).map AdaptiveStream.height)
    rw [h3, List.map_append, List.map_singleton, natListMax_append]
  · show max d.max_fps st.fps = _
    show _ = natListMax ((d.adaptive_streams ++ [st]).map AdaptiveStream.fps)
    rw [h4, List.map_append, List.map_singleton, natListMax_append]

theorem add_members (filt : AdaptiveStream → Bool) (processed : List AdaptiveStream)
    (st : AdaptiveStream) (k : StreamMimeType × DashCodec)
    (hf : filt st = true) (hsk : streamKey st = some k) :
    ∀ acc : List DashAdaptationData,
      (acc.map gKey).Nodup →
      (k ∉ acc.map gKey → processed.filter (inGroup filt k) = []) →
      (∀ d ∈ acc, GroupOk filt processed d) →
      ∀ d ∈ get_adaptation_data_add k st acc, GroupOk filt (processed ++ [st]) d := by
  intro acc
  induction acc with
  | nil =>
    intro _ hnm _ d hd
    simp only [get_adaptation_data_add, List.mem_singleton] at hd
    subst hd
    have hfil : processed.filter (inGroup filt k) = [] := hnm (by simp)
    have hbase : GroupOk filt processed (dash_adaptation_data_new k.1 k.2) := by
      refine ⟨?_, rfl, rfl, rfl⟩
      show ([] : List AdaptiveStream) = _
      rw [show gKey (dash_adaptation_data_new k.1 k.2) = k from rfl, hfil]
    exact GroupOk.snoc_add filt processed st k _ (inGroup_self filt k st hf hsk) rfl hbase
  | cons d0 ds ih =>
    intro hnd hnm hm d hd
    by_cases hd0 : d0.mime_type = k.1 ∧ d0.dash_codec = k.2
    · have hk0 : gKey d0 = k := by
        rw [Prod.ext_iff]
        exact hd0
      simp only [get_adaptation_data_add, if_pos hd0] at hd
      rcases List.mem_cons.mp hd with rfl | hmem
      · exact GroupOk.snoc_add filt processed st k d0
          (inGroup_self filt k st hf hsk) hk0 (hm d0 (by simp))
      · have hnd' := hnd
        rw [List.map_cons, List.nodup_cons] at hnd'
        have hknot : k ∉ ds.map gKey := hk0 ▸ hnd'.1
        have hd' : gKey d ≠ k := by
          intro hcon
          exact hknot (hcon ▸ List.mem_map_of_mem gKey hmem)
        refine GroupOk.snoc_skip filt processed st d ?_ (hm d (by simp [hmem]))
        refine inGroup_false_of_key filt (gKey d) st ?_
        rw [hsk]
        intro hcon
        exact hd' (by injection hcon with h; exact h.symm)
    · have hk0 : gKey d0 ≠ k := fun hcon => hd0 (Prod.ext_iff.mp hcon)
      simp only [get_adaptation_data_add, if_neg hd0] at hd
      rcases List.mem_cons.mp hd with rfl | hmem
      · refine GroupOk.snoc_skip filt processed st d ?_ (hm d (by simp))
        refine inGroup_false_of_key filt (gKey d) st ?_
        rw [hsk]
        intro hcon
        exact hk0 (by injection hcon with h; exact h.symm)
      · refine ih ?_ ?_ ?_ d hmem
        · have hnd' := hnd
          rw [List.map_cons, List.nodup_cons] at hnd'
          exact hnd'.2
        · intro hnotin
          refine hnm ?_
          simp only [List.map_cons, List.mem_cons]
          rintro (hcon | hcon)
          · exact hk0 hcon.symm
          · exact hnotin hcon
        · intro d' hd'
          exact hm d' (by simp [hd'])

theorem fold_invariant (filt : AdaptiveStream → Bool) (rest : List AdaptiveStream) :
    ∀ (processed : List AdaptiveStream) (acc : List DashAdaptationData),
      acc.map gKey = List.foldl (keyStep filt) [] processed →
      (∀ d ∈ acc, GroupOk filt processed d) →
      ((rest.foldl (sort_streams_cb filt) acc).map gKey
          = List.foldl (keyStep filt) [] (processed ++ rest))
        ∧ ∀ d ∈ rest.foldl (sort_streams_cb filt) acc, GroupOk filt (processed ++ rest) d := by
  induction rest with
  | nil =>
    intro processed acc hk hm
    simp only [List.foldl_nil, List.append_nil]
    exact ⟨hk, hm⟩
  | cons st rest ih =>
    intro processed acc hk hm
    have hnd : (acc.map gKey).Nodup := by
      rw [hk]
      exact nodup_foldl_keyStep filt processed [] List.nodup_nil
    have hk' : (sort_streams_cb filt acc st).map gKey
        = List.foldl (keyStep filt) [] (processed ++ [st]) := by
      rw [List.foldl_append, List.foldl_cons, List.foldl_nil, ← hk]
      by_cases hf : filt st = true
      · cases hsk : streamKey st with
        | none => simp [sort_streams_cb, keyStep, hf, hsk]
        | some k => simp [sort_streams_cb, keyStep, hf, hsk, gKey_add]
      · simp [sort_streams_cb, keyStep, hf]
    have hm' : ∀ d ∈ sort_streams_cb filt acc st, GroupOk filt (processed ++ [st]) d := by
      by_cases hf : filt st = true
      · cases hsk : streamKey st with
        | none =>
          intro d hd
          simp only [sort_streams_cb, hf, if_true, hsk] at hd
          refine GroupOk.snoc_skip filt processed st d ?_ (hm d hd)
          exact inGroup_false_of_key filt (gKey d) st (by simp [hsk])
        | some k =>
          have hnm : k ∉ acc.map gKey → processed.filter (inGroup filt k) = [] := by
            intro hk2
            rw [hk] at hk2
            rw [List.filter_eq_nil_iff]
            intro a ha hcontra
            apply hk2
            rw [mem_foldl_keyStep]
            right
            have hq : filt a = true ∧ streamKey a = some k := by
              simpa [inGroup] using hcontra
            exact ⟨a, ha, hq.1, hq.2⟩
          have hstep := add_members filt processed st k hf hsk acc hnd hnm hm
          intro d hd
          refine hstep d ?_
          simpa [sort_streams_cb, hf, hsk] using hd
      · intro d hd
        simp only [sort_streams_cb, hf, if_false] at hd
        have hd2 : d ∈ acc := by
          simpa [if_neg hf] using hd
        exact GroupOk.snoc_skip filt processed st d
          (inGroup_false_of_filter filt (gKey d) st hf) (hm d hd2)
    have hres := ih (processed ++ [st]) (sort_streams_cb filt acc st) hk' hm'
    simpa using hres

/-- Combined grouping invariant: the created groups carry exactly the
first-encounter keys, and every group satisfies `GroupOk` for the full
input. -/
theorem grouping_spec (filt : AdaptiveStream → Bool) (ss : List AdaptiveStream) :
    ((groupStreams filt ss).map gKey = firstKeys filt ss)
      ∧ ∀ d ∈ groupStreams filt ss, GroupOk filt ss d := by
  have h := fold_invariant filt ss [] [] (by simp) (by simp)
  simpa [groupStreams, firstKeys] using h

/-! ## GCD agrees with the mathematical gcd -/

theorem gcdFuel_eq (f : Nat) : ∀ w h : Nat, h < f → gcdFuel f w h = Nat.gcd h w := by
  induction f with
  | zero =>
    intro w h h0
    omega
  | succ f ih =>
    intro w h hlt
    by_cases h0 : h = 0
    · subst h0
      simp [gcdFuel]
    · have hpos : 0 < h := Nat.pos_of_ne_zero h0
      have hmod : w % h < h := Nat.mod_lt w hpos
      rw [show gcdFuel (f + 1) w h = if h = 0 then w else gcdFuel f h (w % h) from rfl,
        if_neg h0, ih h (w % h) (Nat.lt_of_lt_of_le hmod (Nat.lt_succ_iff.mp hlt))]
      exact (Nat.gcd_rec h w).symm

theorem get_gcd_eq_gcd (w h : Nat) : get_gcd w h = Nat.gcd w h := by
  rw [get_gcd, gcdFuel_eq (h + 1) w h (Nat.lt_succ_self h), Nat.gcd_comm]

/-- C5: for every pair of unsigned integers, `obtain_par_from_res`
returns `"1:1"` when either is 0 and otherwise formats both divided by
their gcd (the Euclidean `_get_gcd`, which agrees with `Nat.gcd`); in
particular `par(0,0) = par(7,0) = "1:1"` and
`par(1920,1080) = par(1280,720) = "16:9"`. -/
theorem par_from_res_spec :
    (∀ w h : Nat, get_gcd w h = Nat.gcd w h)
    ∧ (∀ w h : Nat, w = 0 ∨ h = 0 → obtain_par_from_res w h = "1:1")
    ∧ (∀ w h : Nat, w ≠ 0 → h ≠ 0 →
        obtain_par_from_res w h
          = natToDec (w / Nat.gcd w h) ++ ":" ++ natToDec (h / Nat.gcd w h))
    ∧ obtain_par_from_res 0 0 = "1:1" ∧ obtain_par_from_res 7 0 = "1:1"
    ∧ obtain_par_from_res 1920 1080 = "16:9" ∧ obtain_par_from_res 1280 720 = "16:9" := by
  refine ⟨get_gcd_eq_gcd, ?_, ?_, by decide, by decide, by decide, by decide⟩
  · intro w h hz
    rw [obtain_par_from_res, if_pos hz]
  · intro w h hw hh
    rw [obtain_par_from_res, if_neg (by tauto)]
    rw [get_gcd_eq_gcd]

theorem par_from_res_spec_witness :
    get_gcd 1920 1080 = Nat.gcd 1920 1080
    ∧ obtain_par_from_res 0 720 = "1:1"
    ∧ obtain_par_from_res 1920 1080
        = natToDec (1920 / Nat.gcd 1920 1080) ++ ":" ++ natToDec (1080 / Nat.gcd 1920 1080) :=
  ⟨par_from_res_spec.1 1920 1080,
   par_from_res_spec.2.1 0 720 (Or.inl rfl),
   par_from_res_spec.2.2.1 1920 1080 (by decide) (by decide)⟩

/-! ## C1: the grouping partition -/

theorem streamKey_isSome_iff (st : AdaptiveStream) :
    (streamKey st).isSome
      ↔ ((stream_codec st).isSome ∧ stream_dash_codec st ≠ .unknownCodec) := by
  by_cases hc : (stream_codec st).isSome ∧ stream_dash_codec st ≠ .unknownCodec
  · simp [streamKey, hc]
  · simp [streamKey, hc]

/-- C1: the grouper partitions exactly the qualifying streams: the
groups carry the first-encounter keys without duplicates, each group's
member list is the input filtered by its key (so member order is input
order and grouping is position-independent), a stream is in some group
iff the filter accepts it and it classifies to a key, that group is
unique, and a stream classifies to a key iff its container+kind is one
of the four recognized combinations and the relevant codec string maps
to a recognized codec class. -/
theorem grouping_partition (filt : AdaptiveStream → Bool) (ss : List AdaptiveStream) :
    ((groupStreams filt ss).map gKey = firstKeys filt ss ∧ (firstKeys filt ss).Nodup)
    ∧ (∀ d ∈ groupStreams filt ss,
        d.adaptive_streams = ss.filter (inGroup filt (gKey d)))
    ∧ (∀ st ∈ ss,
        ((filt st = true ∧ (streamKey st).isSome)
          ↔ ∃ d ∈ groupStreams filt ss, st ∈ d.adaptive_streams))
    ∧ (∀ d1 ∈ groupStreams filt ss, ∀ d2 ∈ groupStreams filt ss,
        ∀ st : AdaptiveStream, st ∈ d1.adaptive_streams → st ∈ d2.adaptive_streams → d1 = d2)
    ∧ (∀ st : AdaptiveStream,
        (streamKey st).isSome
          ↔ (match st.mime_type with
              | .videoMp4 | .videoWebm => get_dash_video_codec st.video_codec ≠ .unknownCodec
              | .audioMp4 | .audioWebm => get_dash_audio_codec st.audio_codec ≠ .unknownCodec
              | .unknownMime => False)) := by
  obtain ⟨hA, hB⟩ := grouping_spec filt ss
  have hnd : ((groupStreams filt ss).map gKey).Nodup := by
    rw [hA]
    exact firstKeys_nodup filt ss
  refine ⟨⟨hA, firstKeys_nodup filt ss⟩, ?_, ?_, ?_, ?_⟩
  · intro d hd
    exact (hB d hd).1
  · intro st hst
    constructor
    · rintro ⟨hf, hsome⟩
      obtain ⟨k, hsk⟩ := Option.isSome_iff_exists.mp hsome
      have hkmem : k ∈ firstKeys filt ss :=
        (mem_foldl_keyStep filt k ss []).mpr (Or.inr ⟨st, hst, hf, hsk⟩)
      rw [← hA] at hkmem
      obtain ⟨d, hd, hgd⟩ := List.mem_map.mp hkmem
      refine ⟨d, hd, ?_⟩
      rw [(hB d hd).1]
      refine List.mem_filter.mpr ⟨hst, ?_⟩
      rw [hgd]
      exact inGroup_self filt k st hf hsk
    · rintro ⟨d, hd, hmem⟩
      rw [(hB d hd).1] at hmem
      have hin := (List.mem_filter.mp hmem).2
      have hq : filt st = true ∧ streamKey st = some (gKey d) := by
        simpa [inGroup] using hin
      refine ⟨hq.1, ?_⟩
      rw [hq.2]
      rfl
  · intro d1 hd1 d2 hd2 st hm1 hm2
    rw [(hB d1 hd1).1] at hm1
    rw [(hB d2 hd2).1] at hm2
    have h1 := (List.mem_filter.mp hm1).2
    have h2 := (List.mem_filter.mp hm2).2
    have q1 : streamKey st = some (gKey d1) := (by simpa [inGroup] using h1 : _ ∧ _).2
    have q2 : streamKey st = some (gKey d2) := (by simpa [inGroup] using h2 : _ ∧ _).2
    have hk12 : gKey d1 = gKey d2 := by
      have h12 := q1.symm.trans q2
      injection h12
    exact List.inj_on_of_nodup_map hnd hd1 hd2 hk12
  · intro st
    rw [streamKey_isSome_iff]
    cases hmt : st.mime_type <;>
      cases hvc : st.video_codec <;> cases hac : st.audio_codec <;>
        simp [stream_codec, stream_dash_codec, hmt, hvc, hac,
          get_dash_video_codec, get_dash_audio_codec]

theorem grouping_partition_witness :
    (⟨.videoMp4, .avc, 1280, 720, 30, [sampleVideo]⟩ : DashAdaptationData).adaptive_streams
      = [sampleVideo].filter (inGroup (fun _ => true)
          (gKey (⟨.videoMp4, .avc, 1280, 720, 30, [sampleVideo]⟩ : DashAdaptationData))) :=
  (grouping_partition (fun _ => true) [sampleVideo]).2.1 _ (by decide)

/-! ## C4: running maxima -/

theorem foldl_max_init (l : List Nat) : ∀ a : Nat, a ≤ l.foldl max a := by
  induction l with
  | nil =>
    intro a
    exact le_refl a
  | cons x xs ih =>
    intro a
    exact le_trans (le_max_left a x) (ih (max a x))

theorem foldl_max_mem (l : List Nat) (x : Nat) (hx : x ∈ l) : ∀ a : Nat, x ≤ l.foldl max a := by
  induction l with
  | nil => cases hx
  | cons y ys ih =>
    intro a
    rcases List.mem_cons.mp hx with rfl | hmem
    · exact le_trans (le_max_right a x) (foldl_max_init ys (max a x))
    · exact ih hmem (max a y)

theorem le_natListMax_of_mem (l : List Nat) (x : Nat) (hx : x ∈ l) : x ≤ natListMax l :=
  foldl_max_mem l x hx 0

theorem natListMax_all_zero (l : List Nat) (h : ∀ x ∈ l, x = 0) : natListMax l = 0 := by
  induction l with
  | nil => rfl
  | cons x xs ih =>
    have hx := h x (by simp)
    subst hx
    show xs.foldl max (max 0 0) = 0
    have := ih fun y hy => h y (by simp [hy])
    simpa [natListMax] using this

/-- C4: after grouping any input (and after any prefix of it, i.e.
after each processed stream), every group's `max_width`, `max_height`
and `max_fps` equal the maximum over the member streams' values, where
a maximum over `Nat` means a 0 member value never lowers it and the
result is 0 when no member supplies a non-zero value. -/
theorem group_maxima (filt : AdaptiveStream → Bool) (ss : List AdaptiveStream) :
    (∀ d ∈ groupStreams filt ss,
      (d.max_width = natListMax (d.adaptive_streams.map AdaptiveStream.width)
        ∧ d.max_height = natListMax (d.adaptive_streams.map AdaptiveStream.height)
        ∧ d.max_fps = natListMax (d.adaptive_streams.map AdaptiveStream.fps))
      ∧ (∀ st ∈ d.adaptive_streams,
          st.width ≤ d.max_width ∧ st.height ≤ d.max_height ∧ st.fps ≤ d.max_fps)
      ∧ ((∀ st ∈ d.adaptive_streams, st.width = 0) → d.max_width = 0)
      ∧ ((∀ st ∈ d.adaptive_streams, st.height = 0) → d.max_height = 0)
      ∧ ((∀ st ∈ d.adaptive_streams, st.fps = 0) → d.max_fps = 0))
    ∧ (∀ n : Nat, ∀ d ∈ groupStreams filt (ss.take n),
        d.max_width = natListMax (d.adaptive_streams.map AdaptiveStream.width)
        ∧ d.max_height = natListMax (d.adaptive_streams.map AdaptiveStream.height)
        ∧ d.max_fps = natListMax (d.adaptive_streams.map AdaptiveStream.fps)) := by
  have main : ∀ ts : List AdaptiveStream, ∀ d ∈ groupStreams filt ts,
      d.max_width = natListMax (d.adaptive_streams.map AdaptiveStream.width)
      ∧ d.max_height = natListMax (d.adaptive_streams.map AdaptiveStream.height)
      ∧ d.max_fps = natListMax (d.adaptive_streams.map AdaptiveStream.fps) :=
    fun ts d hd => ((grouping_spec filt ts).2 d hd).2
  refine ⟨?_, fun n => main (ss.take n)⟩
  intro d hd
  obtain ⟨hw, hh, hf⟩ := main ss d hd
  refine ⟨⟨hw, hh, hf⟩, ?_, ?_, ?_, ?_⟩
  · intro st hst
    exact ⟨hw ▸ le_natListMax_of_mem _ _ (List.mem_map_of_mem _ hst),
      hh ▸ le_natListMax_of_mem _ _ (List.mem_map_of_mem _ hst),
      hf ▸ le_natListMax_of_mem _ _ (List.mem_map_of_mem _ hst)⟩
  · intro hz
    rw [hw]
    refine natListMax_all_zero _ fun x hx => ?_
    obtain ⟨st, hst, rfl⟩ := List.mem_map.mp hx
    exact hz st hst
  · intro hz
    rw [hh]
    refine natListMax_all_zero _ fun x hx => ?_
    obtain ⟨st, hst, rfl⟩ := List.mem_map.mp hx
    exact hz st hst
  · intro hz
    rw [hf]
    refine natListMax_all_zero _ fun x hx => ?_
    obtain ⟨st, hst, rfl⟩ := List.mem_map.mp hx
    exact hz st hst

theorem group_maxima_witness :
    (⟨.videoMp4, .avc, 1280, 720, 30, [sampleVideo]⟩ : DashAdaptationData).max_width
      = natListMax (((⟨.videoMp4, .avc, 1280, 720, 30,
          [sampleVideo]⟩ : DashAdaptationData).adaptive_streams).map AdaptiveStream.width) :=
  (((group_maxima (fun _ => true) [sampleVideo]).1 _ (by decide)).1).1

/-! ## Newline-freedom of the generated bodies -/

theorem nlFree_append {a b : String} (ha : nlFree a) (hb : nlFree b) : nlFree (a ++ b) := by
  intro hcon
  rw [String.data_append] at hcon
  rcases List.mem_append.mp hcon with h | h
  · exact ha h
  · exact hb h

theorem nlFree_decChars (f : Nat) : ∀ (n : Nat) (acc : List Char),
    ('\n' ∉ acc) → '\n' ∉ decChars f n acc := by
  induction f with
  | zero =>
    intro n acc hacc
    exact hacc
  | succ f ih =>
    intro n acc hacc
    by_cases h0 : n = 0
    · simpa [decChars, h0] using hacc
    · rw [show decChars (f + 1) n acc
          = if n = 0 then acc else decChars f (n / 10) (digitChar (n % 10) :: acc) from rfl,
        if_neg h0]
      refine ih (n / 10) _ ?_
      intro hcon
      rcases List.mem_cons.mp hcon with heq | hmem
      · have hdig : ∀ d : Nat, d < 10 → digitChar d ≠ '\n' := by decide
        exact hdig (n % 10) (Nat.mod_lt n (by norm_num)) heq.symm
      · exact hacc hmem

theorem nlFree_natToDec (n : Nat) : nlFree (natToDec n) := by
  by_cases h0 : n = 0
  · subst h0
    decide
  · rw [natToDec, if_neg h0]
    exact nlFree_decChars (n + 1) n [] (by simp)

theorem nlFree_optStr {k v : String} (hk : nlFree k) (hv : nlFree v) : nlFree (optStr k v) :=
  nlFree_append (nlFree_append (nlFree_append (nlFree_append (by decide) hk) (by decide)) hv)
    (by decide)

theorem nlFree_optInt {k : String} (hk : nlFree k) (v : Nat) : nlFree (optInt k v) :=
  nlFree_optStr hk (nlFree_natToDec v)

theorem nlFree_optRange {k : String} (hk : nlFree k) (s e : Nat) : nlFree (optRange k s e) := by
  refine nlFree_append (nlFree_append (nlFree_append (nlFree_append (nlFree_append
    (nlFree_append (by decide) hk) (by decide)) (nlFree_natToDec s)) (by decide))
    (nlFree_natToDec e)) (by decide)

theorem nlFree_optBool {k : String} (hk : nlFree k) (v : Bool) : nlFree (optBool k v) := by
  cases v <;>
    exact nlFree_append (nlFree_append (nlFree_append (nlFree_append (by decide) hk)
      (by decide)) (by decide)) (by decide)

theorem nlFree_pts (v : Nat) : nlFree (obtain_time_as_pts v) :=
  nlFree_append (nlFree_append (by decide) (nlFree_natToDec v)) (by decide)

theorem nlFree_par (w h : Nat) : nlFree (obtain_par_from_res w h) := by
  by_cases hz : w = 0 ∨ h = 0
  · rw [obtain_par_from_res, if_pos hz]
    decide
  · rw [obtain_par_from_res, if_neg hz]
    exact nlFree_append (nlFree_append (nlFree_natToDec _) (by decide)) (nlFree_natToDec _)

theorem nlFree_ite {c : Prop} [Decidable c] {a b : String} (ha : nlFree a) (hb : nlFree b) :
    nlFree (if c then a else b) := by
  split
  · exact ha
  · exact hb

theorem nlFree_codecsOpt (st : AdaptiveStream) (h : StreamNlFree st) :
    nlFree (codecsOpt st) := by
  obtain ⟨_, hv, ha⟩ := h
  cases hvc : st.video_codec with
  | none =>
    cases hac : st.audio_codec with
    | none =>
      simp only [codecsOpt, hvc, hac]
      decide
    | some a => simpa [codecsOpt, hvc, hac] using nlFree_optStr (by decide) (ha a hac)
  | some v =>
    cases hac : st.audio_codec with
    | none => simpa [codecsOpt, hvc, hac] using nlFree_optStr (by decide) (hv v hvc)
    | some a =>
      have hva : nlFree (v ++ ", " ++ a) :=
        nlFree_append (nlFree_append (hv v hvc) (by decide)) (ha a hac)
      simpa [codecsOpt, hvc, hac] using nlFree_optStr (by decide) hva

theorem nlFree_repLines (st : AdaptiveStream) (h : StreamNlFree st) :
    ∀ p ∈ repLines st, nlFree p.2 := by
  intro p hp
  have huri := h.1
  simp only [repLines, List.mem_cons, List.mem_singleton] at hp
  rcases hp with rfl | rfl | rfl | rfl | rfl | rfl | hp
  · refine nlFree_append (nlFree_append (nlFree_append (nlFree_append (nlFree_append
      (nlFree_append (nlFree_append (nlFree_append (by decide)
        (nlFree_optInt (by decide) _)) (nlFree_codecsOpt st h)) (nlFree_optInt (by decide) _))
      (nlFree_ite (nlFree_optInt (by decide) _) (by decide)))
      (nlFree_ite (nlFree_optInt (by decide) _) (by decide)))
      (nlFree_ite (nlFree_optStr (by decide) (by decide)) (by decide)))
      (nlFree_ite (nlFree_optInt (by decide) _) (by decide))) (by decide)
  · exact nlFree_append (nlFree_append (by decide) huri) (by decide)
  · refine nlFree_append (nlFree_append (nlFree_append (by decide) ?_)
      (nlFree_optBool (by decide) true)) (by decide)
    cases st.index_range with
    | none => decide
    | some r => exact nlFree_optRange (by decide) r.1 r.2
  · refine nlFree_append (nlFree_append (by decide) ?_) (by decide)
    cases st.init_range with
    | none => decide
    | some r => exact nlFree_optRange (by decide) r.1 r.2
  · decide
  · decide
  · cases hp

theorem nlFree_adaptBlock (a : DashAdaptationData) (c m : String)
    (hst : ∀ st ∈ a.adaptive_streams, StreamNlFree st)
    (hc : nlFree c) (hm : nlFree m) :
    ∀ p ∈ (2, adaptOpen a c m)
        :: (a.adaptive_streams.flatMap repLines ++ [(2, "</AdaptationSet>")]),
      nlFree p.2 := by
  intro p hp
  rcases List.mem_cons.mp hp with rfl | hp
  · refine nlFree_append (nlFree_append (nlFree_append (nlFree_append (nlFree_append
      (nlFree_append (by decide) (nlFree_optStr (by decide) hc))
      (nlFree_optStr (by decide) hm)) (nlFree_optBool (by decide) true))
      (nlFree_optInt (by decide) 1)) (nlFree_ite ?_ (by decide))) (by decide)
    exact nlFree_append (nlFree_append (nlFree_append (nlFree_optInt (by decide) _)
      (nlFree_optInt (by decide) _)) (nlFree_optStr (by decide) (nlFree_par _ _)))
      (nlFree_optInt (by decide) _)
  · rcases List.mem_append.mp hp with hp | hp
    · obtain ⟨st, hstm, hpr⟩ := List.mem_flatMap.mp hp
      exact nlFree_repLines st (hst st hstm) p hpr
    · have hpe : p = (2, "</AdaptationSet>") := by simpa using hp
      rw [hpe]
      decide

theorem nlFree_adaptLines (a : DashAdaptationData)
    (hst : ∀ st ∈ a.adaptive_streams, StreamNlFree st) :
    ∀ p ∈ adaptLines a, nlFree p.2 := by
  obtain ⟨mt, dc, mw, mh, mf, stl⟩ := a
  cases mt
  case videoMp4 =>
    exact nlFree_adaptBlock _ "video" ("video" ++ "/mp4") hst (by decide) (by decide)
  case videoWebm =>
    exact nlFree_adaptBlock _ "video" ("video" ++ "/webm") hst (by decide) (by decide)
  case audioMp4 =>
    exact nlFree_adaptBlock _ "audio" ("audio" ++ "/mp4") hst (by decide) (by decide)
  case audioWebm =>
    exact nlFree_adaptBlock _ "audio" ("audio" ++ "/webm") hst (by decide) (by decide)
  case unknownMime =>
    intro p hp
    exact absurd hp (by simp [adaptLines, parse_content_and_mime_type])

theorem nlFree_docLines (filt : AdaptiveStream → Bool) (info : MediaInfo)
    (h : ∀ st ∈ info.adaptive_streams, StreamNlFree st) :
    ∀ p ∈ docLines filt info, nlFree p.2 := by
  intro p hp
  simp only [docLines, List.mem_append, List.mem_cons, List.mem_singleton,
    List.not_mem_nil, or_false] at hp
  rcases hp with ((rfl | rfl | rfl) | hp) | rfl
  · decide
  · exact nlFree_append (nlFree_append (nlFree_append (nlFree_append (by decide)
      (nlFree_optStr (by decide) (nlFree_pts _))) (nlFree_optStr (by decide) (nlFree_pts _)))
      (nlFree_optStr (by decide) (by decide))) (by decide)
  · decide
  · obtain ⟨d, hd, hpd⟩ := List.mem_flatMap.mp hp
    have hmem : ∀ st ∈ d.adaptive_streams, StreamNlFree st := by
      intro st hstm
      have hfilter := ((grouping_spec filt info.adaptive_streams).2 d hd).1
      rw [hfilter] at hstm
      exact h st (List.mem_filter.mp hstm).1
    exact nlFree_adaptLines d hmem p hpd
  · decide

theorem nlFree_strConcat (l : List String) (h : ∀ s ∈ l, nlFree s) : nlFree (strConcat l) := by
  induction l with
  | nil => decide
  | cons x xs ih =>
    exact nlFree_append (h x (by simp)) (ih fun s hs => h s (by simp [hs]))

/-! ## C2: pretty versus non-pretty formatting -/

/-- C2 (amended): for every generator and media info with at least one
group, the pretty document is exactly the line list rendered with
`depth * indent` leading spaces and a trailing newline per line
(`</MPD>` closing the document with no newline), and the non-pretty
document is exactly the same line bodies concatenated with no
indentation and no newline; consequently, when the stream text fields
(URI and codec strings) are newline-free, the non-pretty document
contains no newline character.  (The original claim's unconditional
"no newline characters in non-pretty mode" fails when a stream field
itself carries a newline, which both modes copy verbatim.) -/
theorem formatting_modes (g : Generator) (info : MediaInfo)
    (hne : groupStreams (effFilter g) info.adaptive_streams ≠ []) :
    (g.pretty = true →
      dump_data g info
        = strConcat ((docLines (effFilter g) info).map
            (fun p => spacesStr (p.1 * g.indent) ++ p.2 ++ "\n")) ++ "</MPD>")
    ∧ (g.pretty = false →
      dump_data g info
        = strConcat ((docLines (effFilter g) info).map (fun p => p.2)) ++ "</MPD>")
    ∧ ((∀ st ∈ info.adaptive_streams, StreamNlFree st) → g.pretty = false →
        nlFree (dump_data g info)) := by
  have hd := dump_data_eq g info
  rw [if_neg hne] at hd
  have hplain : g.pretty = false →
      dump_data g info
        = strConcat ((docLines (effFilter g) info).map (fun p => p.2)) ++ "</MPD>" := by
    intro hp
    rw [hd]
    have hfun : renderLine g = fun p : Nat × String => p.2 := by
      funext p
      simp [renderLine, indStr, nlStr, hp]
    rw [hfun]
  refine ⟨?_, hplain, ?_⟩
  · intro hp
    rw [hd]
    have hfun : renderLine g
        = fun p : Nat × String => spacesStr (p.1 * g.indent) ++ p.2 ++ "\n" := by
      funext p
      simp [renderLine, indStr, nlStr, hp]
    rw [hfun]
  · intro hnl hp
    rw [hplain hp]
    refine nlFree_append (nlFree_strConcat _ ?_) (by decide)
    intro s hs
    obtain ⟨p, hp2, rfl⟩ := List.mem_map.mp hs
    exact nlFree_docLines (effFilter g) info hnl p hp2

/-- C2 counterexample: with a qualifying stream whose URI contains a
newline, the non-pretty document contains a newline character,
refuting the claim as stated at this concrete input. -/
theorem formatting_modes_counterexample :
    ¬nlFree (dump_data (mkGen false 2 newlineInfo) newlineInfo) := by
  set_option maxRecDepth 8192 in decide

theorem streamNlFree_concrete (st : AdaptiveStream)
    (h1 : nlFree st.uri)
    (h2 : nlFree (st.video_codec.getD ""))
    (h3 : nlFree (st.audio_codec.getD "")) : StreamNlFree st := by
  refine ⟨h1, ?_, ?_⟩
  · intro c hc
    rw [hc] at h2
    simpa using h2
  · intro c hc
    rw [hc] at h3
    simpa using h3

theorem sample_streams_nlFree : ∀ st ∈ sampleInfo.adaptive_streams, StreamNlFree st := by
  intro st hst
  rcases List.mem_cons.mp hst with rfl | hst
  · exact streamNlFree_concrete _ (by decide) (by decide) (by decide)
  · rcases List.mem_cons.mp hst with rfl | hst
    · exact streamNlFree_concrete _ (by decide) (by decide) (by decide)
    · cases hst

theorem formatting_modes_witness :
    groupStreams (effFilter (mkGen false 2 sampleInfo)) sampleInfo.adaptive_streams ≠ []
    ∧ nlFree (dump_data (mkGen false 2 sampleInfo) sampleInfo) :=
  ⟨by decide,
   (formatting_modes (mkGen false 2 sampleInfo) sampleInfo (by decide)).2.2
     sample_streams_nlFree rfl⟩

/-! ## C6: duration attributes on the MPD element -/

/-- C6: whenever a document is emitted, its MPD line carries the
`mediaPresentationDuration` attribute with value `PT{duration}S` and
the `minBufferTime` attribute with value `PT{min 2 duration}S`; at
duration 125 those attribute texts are
` mediaPresentationDuration="PT125S"` and ` minBufferTime="PT2S"`, and
`min 2 1 = 1` gives `PT1S`. -/
theorem duration_attributes (g : Generator) (info : MediaInfo)
    (hne : groupStreams (effFilter g) info.adaptive_streams ≠ []) :
    (∃ pre post, dump_data g info
        = pre ++ optStr "mediaPresentationDuration" (obtain_time_as_pts info.duration)
            ++ optStr "minBufferTime" (obtain_time_as_pts (min 2 info.duration)) ++ post)
    ∧ obtain_time_as_pts 125 = "PT125S"
    ∧ obtain_time_as_pts (min 2 125) = "PT2S"
    ∧ obtain_time_as_pts (min 2 1) = "PT1S"
    ∧ optStr "mediaPresentationDuration" (obtain_time_as_pts 125)
        = " mediaPresentationDuration=\"PT125S\""
    ∧ optStr "minBufferTime" (obtain_time_as_pts (min 2 125)) = " minBufferTime=\"PT2S\"" := by
  refine ⟨?_, by decide, by decide, by decide, by decide, by decide⟩
  have hd := dump_data_eq g info
  rw [if_neg hne] at hd
  refine ⟨renderLine g (0, xmlDeclB) ++ (indStr g 0 ++ mpdPre),
    optStr "profiles" "urn:mpeg:dash:profile:isoff-on-demand:2011" ++ ">" ++ nlStr g
      ++ strConcat (((1, "<Period>")
          :: ((groupStreams (effFilter g) info.adaptive_streams).flatMap adaptLines
            ++ [(1, "</Period>")])).map (renderLine g))
      ++ "</MPD>", ?_⟩
  rw [hd]
  simp [docLines, strConcat, strConcat_append, renderLine, mpdB, -String.reduceAppend,
    String.append_assoc]

theorem duration_attributes_witness :
    groupStreams (effFilter (mkGen true 4 sampleInfo)) sampleInfo.adaptive_streams ≠ []
    ∧ obtain_time_as_pts 125 = "PT125S" :=
  ⟨by decide, (duration_attributes (mkGen true 4 sampleInfo) sampleInfo (by decide)).2.1⟩

/-! ## C10: no trailing newline -/

/-- C10: every non-empty document (in either mode, in particular in
pretty mode) ends with the `</MPD>` text written without a line
terminator, so its last character is `>` and not a newline. -/
theorem no_trailing_newline (g : Generator) (info : MediaInfo)
    (hne : groupStreams (effFilter g) info.adaptive_streams ≠ []) :
    (∃ s, dump_data g info = s ++ "</MPD>")
    ∧ (dump_data g info).data.getLast? = some '>'
    ∧ (dump_data g info).data.getLast? ≠ some '\n' := by
  have hd := dump_data_eq g info
  rw [if_neg hne] at hd
  have hlast : (dump_data g info).data.getLast? = some '>' := by
    rw [hd, String.data_append]
    rw [List.getLast?_append_of_ne_nil _ (by decide)]
    decide
  refine ⟨⟨_, hd⟩, hlast, ?_⟩
  rw [hlast]
  decide

theorem no_trailing_newline_witness :
    (dump_data (mkGen true 4 sampleInfo) sampleInfo).data.getLast? ≠ some '\n' :=
  (no_trailing_newline (mkGen true 4 sampleInfo) sampleInfo (by decide)).2.2

/-! ## C7: zero qualifying streams -/

theorem foldl_sort_id (filt : AdaptiveStream → Bool) :
    ∀ (ss : List AdaptiveStream) (acc : List DashAdaptationData),
      (∀ st ∈ ss, ¬(filt st = true ∧ (streamKey st).isSome)) →
      ss.foldl (sort_streams_cb filt) acc = acc := by
  intro ss
  induction ss with
  | nil =>
    intro acc _
    rfl
  | cons st rest ih =>
    intro acc hq
    have hstep : sort_streams_cb filt acc st = acc := by
      by_cases hf : filt st = true
      · cases hsk : streamKey st with
        | none => simp [sort_streams_cb, hf, hsk]
        | some k => exact absurd ⟨hf, by simp [hsk]⟩ (hq st (by simp))
      · simp [sort_streams_cb, hf]
    rw [List.foldl_cons, hstep]
    exact ih acc fun st2 h2 => hq st2 (by simp [h2])

theorem groupStreams_nil_of_unqualified (filt : AdaptiveStream → Bool)
    (ss : List AdaptiveStream)
    (h : ∀ st ∈ ss, ¬(filt st = true ∧ (streamKey st).isSome)) :
    groupStreams filt ss = [] :=
  foldl_sort_id filt ss [] h

theorem ne_tmpName (path : String) : path ≠ tmpName path := by
  intro hcon
  have hlen := congrArg String.length hcon
  rw [tmpName, String.length_append] at hlen
  have : String.length ".XXXXXX" = 7 := by decide
  omega

/-- C7: when no stream qualifies (the filter rejects it or it does not
classify to a key), generation is not an error: the text buffer is the
empty string with length 0, and file generation succeeds, leaving a
zero-length file at the target path with no error reported. -/
theorem empty_input_output (g : Generator) (info : MediaInfo) (fs : FsState) (path : String)
    (hq : ∀ st ∈ info.adaptive_streams, ¬(effFilter g st = true ∧ (streamKey st).isSome))
    (hmi : g.media_info = some info) :
    dump_data g info = ""
    ∧ (dump_data g info).length = 0
    ∧ gen_to_data_internal g = some ("", 0)
    ∧ (gtuber_manifest_generator_to_file g fs path true true).2.1 = true
    ∧ (gtuber_manifest_generator_to_file g fs path true true).2.2 = none
    ∧ (gtuber_manifest_generator_to_file g fs path true true).1 path = some "" := by
  have hnil : groupStreams (effFilter g) info.adaptive_streams = [] :=
    groupStreams_nil_of_unqualified (effFilter g) info.adaptive_streams hq
  have hdump : dump_data g info = "" := by
    rw [dump_data_eq, if_pos hnil]
  have hgen : gen_to_data_internal g = some ("", 0) := by
    unfold gen_to_data_internal
    rw [hmi]
    simp [hdump]
  have hfile : gtuber_manifest_generator_to_file g fs path true true
      = ((g_file_set_contents fs path "" true true).1, true, none) := by
    unfold gtuber_manifest_generator_to_file
    rw [hgen]
    simp [g_file_set_contents]
  refine ⟨hdump, by rw [hdump]; rfl, hgen, by rw [hfile], by rw [hfile], ?_⟩
  rw [hfile]
  simp only [g_file_set_contents, if_neg]
  have h1 : ¬(path = tmpName path) := ne_tmpName path
  simp [h1]

theorem empty_input_output_witness :
    dump_data (mkGen false 2 (MediaInfo.mk 5 [])) (MediaInfo.mk 5 []) = ""
    ∧ (gtuber_manifest_generator_to_file (mkGen false 2 (MediaInfo.mk 5 []))
        emptyFs "out.mpd" true true).1 "out.mpd" = some "" := by
  have h := empty_input_output (mkGen false 2 (MediaInfo.mk 5 [])) (MediaInfo.mk 5 [])
    emptyFs "out.mpd" (by simp) rfl
  exact ⟨h.1, h.2.2.2.2.2⟩

/-! ## C3: generation before media info is set -/

/-- C3: with no media info set, `gen_to_data_internal` bails out
through `g_return_val_if_fail`, handing the caller `NULL` with no
data; the function has no `GError` out-parameter at all, so no
`InvalidState` error object is reported (the error quark the file
defines is never used), and `gtuber_manifest_generator_to_file` then
hands the `NULL` data together with an uninitialized length to
`g_file_set_contents` (undefined behavior, modelled as performing no
write and reporting no error). -/
theorem invalid_state_not_reported :
    gen_to_data_internal unsetGen = none
    ∧ gtuber_manifest_generator_to_file unsetGen emptyFs "out.mpd" true true
        = (emptyFs, false, none) :=
  ⟨rfl, rfl⟩

/-! ## C8: atomic persistence (modelled from the spec) -/

/-- C8 (modelled from the spec: `g_file_set_contents` is GLib code not
in this repository): the write-then-rename persists atomically; any
failed step leaves the target path's prior content (or absence)
unmodified and reports an I/O error through the `GError` channel of
`gtuber_manifest_generator_to_file`, and a successful run installs the
generated text at the target and leaves no temporary file behind. -/
theorem atomic_persist (fs : FsState) (path contents : String) (wOk rOk : Bool)
    (g : Generator) (info : MediaInfo) (hmi : g.media_info = some info) :
    ((g_file_set_contents fs path contents wOk rOk).2 = false
      → (g_file_set_contents fs path contents wOk rOk).1 path = fs path)
    ∧ (wOk = false → g_file_set_contents fs path contents wOk rOk = (fs, false))
    ∧ (wOk = true → rOk = false →
        (g_file_set_contents fs path contents wOk rOk).2 = false
        ∧ (g_file_set_contents fs path contents wOk rOk).1 (tmpName path) = some contents)
    ∧ (wOk = true → rOk = true →
        (g_file_set_contents fs path contents wOk rOk).2 = true
        ∧ (g_file_set_contents fs path contents wOk rOk).1 path = some contents
        ∧ (g_file_set_contents fs path contents wOk rOk).1 (tmpName path) = none)
    ∧ (gtuber_manifest_generator_to_file g fs path wOk rOk
        = ((g_file_set_contents fs path (dump_data g info) wOk rOk).1,
            (g_file_set_contents fs path (dump_data g info) wOk rOk).2,
            if (g_file_set_contents fs path (dump_data g info) wOk rOk).2 = true then none
            else some GenError.ioError)) := by
  have hne : ¬(path = tmpName path) := ne_tmpName path
  cases wOk <;> cases rOk <;>
    simp [g_file_set_contents, gtuber_manifest_generator_to_file, gen_to_data_internal,
      hmi, hne]

theorem atomic_persist_witness :
    (g_file_set_contents emptyFs "out.mpd" "data" true true).2 = true
    ∧ (g_file_set_contents emptyFs "out.mpd" "data" true true).1 "out.mpd" = some "data"
    ∧ (g_file_set_contents emptyFs "out.mpd" "data" true true).1 (tmpName "out.mpd") = none :=
  (atomic_persist emptyFs "out.mpd" "data" true true (mkGen false 2 sampleInfo) sampleInfo
    rfl).2.2.2.1 rfl rfl

/-! ## C9: filter cleanup exactly once -/

theorem regIds_cons_set (r : Option (Nat × Bool)) (ops : List GenOp) :
    regIds (GenOp.setFilter r :: ops) = relCur r ++ regIds ops := by
  cases r with
  | none => simp [regIds, relCur]
  | some p =>
    obtain ⟨i, b⟩ := p
    cases b <;> simp [regIds, relCur]

theorem regIds_cons_dispose (ops : List GenOp) :
    regIds (GenOp.dispose :: ops) = regIds ops := by
  simp [regIds]

theorem runOps_trace (ops : List GenOp) : ∀ cur : Option (Nat × Bool),
    ops.getLast? = some GenOp.dispose →
    (runOps cur ops).2 = relCur cur ++ regIds ops := by
  induction ops with
  | nil =>
    intro cur h
    simp at h
  | cons op rest ih =>
    intro cur hlast
    cases rest with
    | nil =>
      have hop : op = GenOp.dispose := by simpa using hlast
      subst hop
      simp [runOps, gen_op_step, regIds, relCur]
    | cons op2 rest2 =>
      rw [List.getLast?_cons_cons] at hlast
      cases op with
      | setFilter r =>
        show relCur cur ++ (runOps r (op2 :: rest2)).2 = _
        rw [ih r hlast, regIds_cons_set]
      | dispose =>
        show relCur cur ++ (runOps none (op2 :: rest2)).2 = _
        rw [ih none hlast, regIds_cons_dispose]
        simp [relCur]

theorem runOps_sub (ops : List GenOp) : ∀ cur : Option (Nat × Bool),
    (runOps cur ops).2.Sublist (relCur cur ++ regIds ops) := by
  induction ops with
  | nil =>
    intro cur
    simp [runOps]
  | cons op rest ih =>
    intro cur
    cases op with
    | setFilter r =>
      show (relCur cur ++ (runOps r rest).2).Sublist _
      rw [regIds_cons_set]
      exact (ih r).append_left (relCur cur)
    | dispose =>
      show (relCur cur ++ (runOps none rest).2).Sublist _
      rw [regIds_cons_dispose]
      have h2 : (runOps none rest).2.Sublist (regIds rest) := by
        simpa [relCur] using ih none
      exact h2.append_left (relCur cur)

/-- C9: over any operation sequence on the filter slot starting from
an empty registration, the emitted cleanup calls are a sublist of the
registered-with-destroy user-data ids; when the sequence ends with
`dispose`, they are exactly those ids in order, so each registered
cleanup runs exactly once (and never twice even without a trailing
dispose, when ids are distinct); moreover one `set_filter_func` step
releases the previous registration while installing the new one. -/
theorem filter_cleanup_once (ops : List GenOp) :
    ((runOps none ops).2.Sublist (regIds ops))
    ∧ (ops.getLast? = some GenOp.dispose → (runOps none ops).2 = regIds ops)
    ∧ ((regIds ops).Nodup → ops.getLast? = some GenOp.dispose →
        ∀ i ∈ regIds ops, (runOps none ops).2.count i = 1)
    ∧ ((regIds ops).Nodup → ∀ i : Nat, (runOps none ops).2.count i ≤ 1)
    ∧ (∀ cur r : Option (Nat × Bool),
        gen_op_step cur (GenOp.setFilter r) = (r, relCur cur)) := by
  have hsub : (runOps none ops).2.Sublist (regIds ops) := by
    simpa [relCur] using runOps_sub ops none
  have htr : ops.getLast? = some GenOp.dispose → (runOps none ops).2 = regIds ops := by
    intro h
    simpa [relCur] using runOps_trace ops none h
  refine ⟨hsub, htr, ?_, ?_, fun cur r => rfl⟩
  · intro hnd hlast i hi
    rw [htr hlast]
    exact List.count_eq_one_of_mem hnd hi
  · intro hnd i
    exact le_trans (hsub.count_le i) (List.nodup_iff_count_le_one.mp hnd i)

theorem filter_cleanup_once_witness :
    (runOps none [GenOp.setFilter (some (5, true)), GenOp.setFilter (some (7, true)),
        GenOp.dispose]).2
      = regIds [GenOp.setFilter (some (5, true)), GenOp.setFilter (some (7, true)),
        GenOp.dispose] :=
  (filter_cleanup_once [GenOp.setFilter (some (5, true)), GenOp.setFilter (some (7, true)),
    GenOp.dispose]).2.1 (by decide)

end Gtuber
